import Mathlib

set_option maxHeartbeats 1000000

/-!
Shallow embedding of `llmfoundry/models/hf/model_wrapper.py`
(`HuggingFaceModelWithZLoss`): the batch-to-forward-call adaptation,
the label-shifting causal-LM loss, the optional z-loss term, and the
metadata export.  Tensors are embedded as nested lists (integers for
label/batch tensors, real numbers for logits); Python exceptions are
embedded as an explicit error type; the mutation that `forward` performs
on its `batch` argument is embedded by returning the caller-visible
batch alongside the result.
-/

/-- HuggingFace hardcodes the ignore index to -100 (`_HF_IGNORE_INDEX`). -/
def HF_IGNORE_INDEX : Int := -100

/-- Python-level exceptions that the wrapper code can raise. -/
inductive PyError where
  | keyError (key : String)
  | typeError (msg : String)
  | valueError (msg : String)
  deriving DecidableEq

/-- Values stored in a batch mapping: `None`, an integer tensor of shape
[batch, seq] (labels, input ids, attention masks), or the result of the
`.bool()` coercion that `forward` applies to `attention_mask`. -/
inductive TVal where
  | pyNone
  | intTensor (data : List (List Int))
  | boolOf (t : TVal)
  deriving DecidableEq

/-- Runtime shapes the `batch` argument of `forward` can take.  `dict` and
`userdict` are the two classes accepted by the `isinstance` check; `popObj`
is any other object exposing a dict-style `pop(key)` method (its `pop`
succeeds, the `isinstance` check then fails); `pyList` is a Python list,
whose `pop` requires an integer index so `pop('labels')` is a `TypeError`. -/
inductive BatchInput where
  | dict (d : List (String × TVal))
  | userdict (d : List (String × TVal))
  | popObj (d : List (String × TVal))
  | pyList (xs : List TVal)
  deriving DecidableEq

/-- What the wrapped HuggingFace model's call returns (the fields the
wrapper reads: `logits`, `past_key_values`, `hidden_states`).  Logits have
shape [batch, seq, vocab]; the cache and hidden states are opaque. -/
structure ModelOut where
  logits : List (List (List ℝ))
  past_key_values : Option Nat
  hidden_states : Option Nat

/-- `CausalLMOutputWithPast` as constructed at the end of `forward`. -/
structure LMOutput where
  loss : Option ℝ
  logits : List (List (List ℝ))
  past_key_values : Option Nat
  hidden_states : Option Nat

/-- The adapter's own state: the argument-name list recorded at
construction (`inspect.getfullargspec(self.model.forward).args + ['labels']`),
the z-loss coefficient, and the wrapped model's `config.use_return_dict`
flag that `loss` branches on.  Floats are embedded as rationals. -/
structure HuggingFaceModelWithZLoss where
  model_forward_args : List String
  z_loss : ℚ
  use_return_dict : Bool
  deriving DecidableEq

/-- Message of the `ValueError` raised by `__init__` on a negative z-loss. -/
def zLossNegMsg : String := "z_loss cannot be negative."

/-- `__init__`: record `float(z_loss)`, fail if it is negative, and record
the wrapped model's forward-argument names plus `'labels'`. -/
def HuggingFaceModelWithZLoss.init (forwardArgs : List String) (z : ℚ)
    (useReturnDict : Bool) : Except PyError HuggingFaceModelWithZLoss :=
  if z < 0 then .error (.valueError zLossNegMsg)
  else .ok { model_forward_args := forwardArgs ++ ["labels"],
             z_loss := z,
             use_return_dict := useReturnDict }

/-- Python `dict.pop(key)` with no default: remove the entry and return its
value together with the remaining entries, or `none` (a `KeyError`) when
the key is absent. -/
def dictPop (k : String) : List (String × TVal) → Option (TVal × List (String × TVal))
  | [] => none
  | (k', v) :: rest =>
    if k' = k then some (v, rest)
    else
      match dictPop k rest with
      | none => none
      | some (v', rest') => some (v', (k', v) :: rest')

/-- Python `d[key] = value`: replace the value of an existing key in place,
or append a fresh entry at the end. -/
def pyDictSet : List (String × TVal) → String → TVal → List (String × TVal)
  | [], k, v => [(k, v)]
  | (k', v') :: rest, k, v =>
    if k' = k then (k, v) :: rest else (k', v') :: pyDictSet rest k v

/-- Lines 76-80 of `forward`: keep only the keys in `model_forward_args`,
then coerce `attention_mask` to boolean — `batch["attention_mask"] =
batch["attention_mask"].bool()`, which raises `KeyError` if
`attention_mask` did not survive the filter. -/
def prepareKwargs (args : List String) (d : List (String × TVal)) :
    Except PyError (List (String × TVal)) :=
  match (d.filter (fun kv => args.contains kv.1)).lookup "attention_mask" with
  | none => .error (.keyError "attention_mask")
  | some v =>
    .ok (pyDictSet (d.filter (fun kv => args.contains kv.1)) "attention_mask" (TVal.boolOf v))

/-- `torch.roll(t, shifts=-1)` with no `dims` argument: the tensor is
flattened, every element moves one slot towards index 0, and the first
element wraps around to the end. -/
def torchRollFlat : List Int → List Int
  | [] => []
  | x :: rest => rest ++ [x]

/-- `row[-1] = v` on one row of a 2-d tensor. -/
def setLast (v : Int) : List Int → List Int
  | [] => []
  | [_] => [v]
  | x :: y :: rest => x :: setLast v (y :: rest)

/-- Reshape a flat list back into the row structure of the first argument
(`torch.roll` preserves the shape of its input). -/
def reshapeLike : List (List Int) → List Int → List (List Int)
  | [], _ => []
  | r :: rs, flat => flat.take r.length :: reshapeLike rs (flat.drop r.length)

/-- Lines 89-90 of `forward`:
`labels = torch.roll(labels, shifts=-1); labels[:, -1] = -100`. -/
def shiftLabels (labels : List (List Int)) : List (List Int) :=
  (reshapeLike labels (torchRollFlat labels.flatten)).map (setLast HF_IGNORE_INDEX)

/-- `torch.logsumexp(row, dim=-1)`: log of the sum of exponentials of one
row of logits. -/
noncomputable def logsumexp (row : List ℝ) : ℝ :=
  Real.log ((row.map Real.exp).sum)

/-- `F.cross_entropy(input, target)` with the default `reduction='mean'`
and `ignore_index=-100`: mean over the positions whose target is not the
ignore index of `logsumexp(input_i) - input_i[target_i]`. -/
noncomputable def crossEntropyMean (input : List (List ℝ)) (target : List Int) : ℝ :=
  let valid := (input.zip target).filter (fun p => p.2 != HF_IGNORE_INDEX)
  ((valid.map (fun p => logsumexp p.1 - p.1.getD p.2.toNat 0)).sum) / valid.length

/-- Lines 87-93 of `forward`: `None` labels give a `None` loss; tensor
labels are shifted and fed to cross-entropy against the flattened logits.
(Rolling a non-tensor is a `TypeError`.) -/
noncomputable def computeLoss (labels : TVal) (logits : List (List (List ℝ))) :
    Except PyError (Option ℝ) :=
  match labels with
  | .pyNone => .ok none
  | .intTensor data => .ok (some (crossEntropyMean logits.flatten (shiftLabels data).flatten))
  | .boolOf _ => .error (.typeError "roll expects an integer tensor of labels")

/-- Message of the `ValueError` raised when the batch is not a dict/UserDict. -/
def unexpectedBatchTypeMsg : String :=
  "Unexpected batch type. Expected a dictionary with keys corresponding to the inputs to the forward function of the Huggingface model"

/-- The code path of `forward` shared by `dict` and `UserDict` batches,
after `labels` has been popped: filter the kwargs, call the model, compute
the (optional) loss, and package a `CausalLMOutputWithPast`.  The first
component of the result is the caller-visible state of the batch (`wrap`
rebuilds it around the entries left after the pop; the later filtered
comprehension rebinds a fresh dict and does not affect the caller). -/
noncomputable def forwardBody (s : HuggingFaceModelWithZLoss)
    (model : List (String × TVal) → ModelOut)
    (wrap : List (String × TVal) → BatchInput)
    (d : List (String × TVal)) : BatchInput × Except PyError LMOutput :=
  match dictPop "labels" d with
  | none => (wrap d, .error (.keyError "labels"))
  | some (labels, d') =>
    match prepareKwargs s.model_forward_args d' with
    | .error e => (wrap d', .error e)
    | .ok kwargs =>
      let outputs := model kwargs
      match computeLoss labels outputs.logits with
      | .error e => (wrap d', .error e)
      | .ok lossVal =>
        (wrap d', .ok { loss := lossVal,
                        logits := outputs.logits,
                        past_key_values := outputs.past_key_values,
                        hidden_states := outputs.hidden_states })

/-- `forward(self, batch)`.  Returns `(self, batch-after-the-call, result)`:
the method never reassigns any attribute of `self`, and the result is the
output record or the exception that propagates.  A list batch fails inside
`batch.pop('labels')` with a `TypeError` (list.pop wants an integer index);
an object with a dict-style `pop` that is neither `dict` nor `UserDict`
has its `labels` entry removed and then hits the `else` branch's
`ValueError`. -/
noncomputable def HuggingFaceModelWithZLoss.forward (s : HuggingFaceModelWithZLoss)
    (model : List (String × TVal) → ModelOut) :
    BatchInput → HuggingFaceModelWithZLoss × BatchInput × Except PyError LMOutput
  | .dict d => (s, forwardBody s model .dict d)
  | .userdict d => (s, forwardBody s model .userdict d)
  | .popObj d =>
    match dictPop "labels" d with
    | none => (s, .popObj d, .error (.keyError "labels"))
    | some (_, d') => (s, .popObj d', .error (.valueError unexpectedBatchTypeMsg))
  | .pyList xs =>
    (s, .pyList xs, .error (.typeError "integer argument expected, got str"))

/-- The `outputs` value handed to `loss`: either a mapping with `loss` and
`logits` keys or an ordered pair with the loss at index 0 and the logits at
index 1. -/
inductive Outputs where
  | dictOut (loss : ℝ) (logits : List (List (List ℝ)))
  | tupOut (loss : ℝ) (logits : List (List (List ℝ)))

/-- Lines 102-106 of `loss`: the extraction branches on
`self.config.use_return_dict`, not on the runtime shape of `outputs`.
Indexing a tuple with the string `'loss'` is a `TypeError`; slicing a
mapping with `[:2]` is likewise a `TypeError`. -/
def extractByFlag (useReturnDict : Bool) : Outputs → Except PyError (ℝ × List (List (List ℝ)))
  | .dictOut l g => if useReturnDict then .ok (l, g)
      else .error (.typeError "unhashable type: slice")
  | .tupOut l g => if useReturnDict then .error (.typeError "tuple indices must be integers")
      else .ok (l, g)

/-- Lines 117-121 of `loss`: write the augmented loss back into `outputs`,
through the key `'loss'` or the index 0 according to the same flag. -/
def setLossByFlag (o : Outputs) (newLoss : ℝ) : Outputs :=
  match o with
  | .dictOut _ g => .dictOut newLoss g
  | .tupOut _ g => .tupOut newLoss g

/-- `logits_flat[labels_flat != _HF_IGNORE_INDEX]`: the rows of the
flattened logits whose corresponding label is not the ignore index. -/
def validRows (logits_flat : List (List ℝ)) (labels_flat : List Int) : List (List ℝ) :=
  ((logits_flat.zip labels_flat).filter (fun p => p.2 != HF_IGNORE_INDEX)).map Prod.fst

/-- Lines 110-115 of `loss`: mean over the valid rows of the squared
log-sum-exp, i.e. `(torch.logsumexp(selected, dim=1) ** 2).mean()`. -/
noncomputable def zTerm (logits_flat : List (List ℝ)) (labels_flat : List Int) : ℝ :=
  (((validRows logits_flat labels_flat).map (fun r => logsumexp r ^ 2)).sum) /
    ((validRows logits_flat labels_flat).length)

/-- `loss(self, outputs, batch)`.  `labelsBatch` is the tensor
`batch['labels']` of shape [batch, seq].  Returns `(self, result)`; on
success the result carries the caller-visible `outputs` (mutated in place
when the z-loss term was added) and the returned scalar. -/
noncomputable def HuggingFaceModelWithZLoss.loss (s : HuggingFaceModelWithZLoss)
    (outputs : Outputs) (labelsBatch : List (List Int)) :
    HuggingFaceModelWithZLoss × Except PyError (Outputs × ℝ) :=
  match extractByFlag s.use_return_dict outputs with
  | .error e => (s, .error e)
  | .ok (lossVal, logits) =>
    if s.z_loss = 0 then (s, .ok (outputs, lossVal))
    else
      let logits_flat := logits.flatten
      let labels_flat := labelsBatch.flatten
      let zLossTerm := zTerm logits_flat labels_flat * (s.z_loss : ℝ)
      let newLoss := lossVal + zLossTerm
      (s, .ok (setLossByFlag outputs newLoss, newLoss))

/-- The `'config'` entry built by `get_metadata`. -/
structure ConfigMeta (J : Type) where
  file_extension : String
  content : J
  class_name : String

/-- The structure returned by `get_metadata`: a `'model'` entry holding the
config description and a `'tokenizer'` entry. -/
structure MetadataResult (J : Type) where
  modelConfig : ConfigMeta J
  tokenizer : List (String × J)

/-- `get_metadata(self)`.  The interaction with the scoped temporary
directory is embedded by its observable data flow: `savedConfigFile` is
the text that `self.model.config.save_pretrained` writes to
`model/config.json`, `parse` is `json.load`, `className` is the
fully-qualified class name of the wrapped model, and `tokenizerFiles` is
what `self.tokenizer.save_pretrained` would write (present exactly when a
tokenizer was supplied).  The tokenizer files are written inside the
temporary directory but never read back: `tokenizer_output` stays the
empty dict.  Returns `(self, result)`; `self` is not modified. -/
def HuggingFaceModelWithZLoss.get_metadata {J : Type} (s : HuggingFaceModelWithZLoss)
    (parse : String → J) (savedConfigFile : String) (className : String)
    (tokenizerFiles : Option (List (String × String))) :
    HuggingFaceModelWithZLoss × MetadataResult J :=
  (s, { modelConfig := { file_extension := ".json",
                         content := parse savedConfigFile,
                         class_name := className },
        tokenizer := [] })

/-- Setting the last entry of a list that ends in an explicit singleton. -/
theorem setLast_append_singleton (v y : Int) (xs : List Int) :
    setLast v (xs ++ [y]) = xs ++ [v] := by
  induction xs with
  | nil => rfl
  | cons a as ih =>
    cases as with
    | nil => rfl
    | cons b bs =>
      show a :: setLast v ((b :: bs) ++ [y]) = a :: ((b :: bs) ++ [v])
      rw [ih]

/-- Core of the label shift: reshaping the left-rotated flattened tensor
back into the rectangular row structure and overwriting each row's last
entry turns every row `r` into `r.drop 1 ++ [v]` — the element rotated in
from the next row is exactly the one the overwrite discards. -/
theorem reshapeLike_roll (v : Int) (L : Nat) (hL : 0 < L) :
    ∀ (rows : List (List Int)) (x : Int), (∀ r ∈ rows, r.length = L) →
      (reshapeLike rows (rows.flatten.drop 1 ++ [x])).map (setLast v) =
        rows.map (fun r => r.drop 1 ++ [v]) := by
  intro rows
  induction rows with
  | nil => intro x _; rfl
  | cons r rs ih =>
    intro x h
    have hr : r.length = L := h r (List.mem_cons_self r rs)
    have hrs : ∀ q ∈ rs, q.length = L := fun q hq => h q (List.mem_cons_of_mem r hq)
    have hlen : (r.drop 1).length = L - 1 := by rw [List.length_drop, hr]
    have harg : (r :: rs).flatten.drop 1 ++ [x] = r.drop 1 ++ (rs.flatten ++ [x]) := by
      rw [List.flatten_cons, List.drop_append_eq_append_drop]
      have h10 : 1 - r.length = 0 := by omega
      rw [h10, List.drop_zero, List.append_assoc]
    obtain ⟨y, t, hyt⟩ : ∃ y t, rs.flatten ++ [x] = y :: t := by
      cases hfl : rs.flatten with
      | nil => exact ⟨x, [], by simp⟩
      | cons c cs => exact ⟨c, cs ++ [x], by simp⟩
    have htake : (r.drop 1 ++ (rs.flatten ++ [x])).take r.length = r.drop 1 ++ [y] := by
      rw [List.take_append_eq_append_take,
          List.take_of_length_le (by omega : (r.drop 1).length ≤ r.length)]
      have h2 : r.length - (r.drop 1).length = 1 := by omega
      rw [h2, hyt]
      simp
    have hdropL : (r.drop 1 ++ (rs.flatten ++ [x])).drop r.length =
        (rs.flatten ++ [x]).drop 1 := by
      rw [List.drop_append_eq_append_drop,
          List.drop_eq_nil_of_le (by omega : (r.drop 1).length ≤ r.length)]
      have h2 : r.length - (r.drop 1).length = 1 := by omega
      rw [h2, List.nil_append]
    rw [harg]
    show ((r.drop 1 ++ (rs.flatten ++ [x])).take r.length ::
          reshapeLike rs ((r.drop 1 ++ (rs.flatten ++ [x])).drop r.length)).map (setLast v) =
        (r :: rs).map (fun q => q.drop 1 ++ [v])
    rw [htake, hdropL, List.map_cons, List.map_cons, setLast_append_singleton]
    congr 1
    cases rs with
    | nil => rfl
    | cons q rs' =>
      have hq : q.length = L := hrs q (List.mem_cons_self q rs')
      have hdrop : ((q :: rs').flatten ++ [x]).drop 1 = (q :: rs').flatten.drop 1 ++ [x] := by
        rw [List.drop_append_eq_append_drop]
        have h10 : 1 - (q :: rs').flatten.length = 0 := by
          rw [List.flatten_cons, List.length_append]
          omega
        rw [h10, List.drop_zero]
      rw [hdrop]
      exact ih x hrs

/-- On a rectangular [batch, seq] tensor with positive row length, the
flatten-roll-reshape-overwrite sequence of `forward` acts row by row:
each row becomes its own tail followed by the ignore index. -/
theorem shiftLabels_eq_of_rect (L : Nat) (hL : 0 < L) (rows : List (List Int))
    (hrect : ∀ r ∈ rows, r.length = L) :
    shiftLabels rows = rows.map (fun r => r.drop 1 ++ [HF_IGNORE_INDEX]) := by
  cases rows with
  | nil => rfl
  | cons r rs =>
    have hr : r.length = L := hrect r (List.mem_cons_self r rs)
    obtain ⟨a, r1, hr1⟩ : ∃ a r1, r = a :: r1 := by
      cases r with
      | nil => rw [List.length_nil] at hr; omega
      | cons a r1 => exact ⟨a, r1, rfl⟩
    have hroll : torchRollFlat ((r :: rs).flatten) = (r :: rs).flatten.drop 1 ++ [a] := by
      subst hr1
      simp [torchRollFlat, List.flatten_cons]
    rw [shiftLabels, hroll]
    exact reshapeLike_roll HF_IGNORE_INDEX L hL (r :: rs) a hrect

/-- Row `i` of the shifted labels, as a whole list. -/
theorem shiftLabels_getD (L : Nat) (hL : 0 < L) (rows : List (List Int))
    (hrect : ∀ r ∈ rows, r.length = L) (i : Nat) (hi : i < rows.length) :
    (shiftLabels rows).getD i [] = (rows.getD i []).drop 1 ++ [HF_IGNORE_INDEX] := by
  rw [shiftLabels_eq_of_rect L hL rows hrect,
      List.getD_eq_getElem _ _ (by simpa using hi), List.getElem_map,
      List.getD_eq_getElem _ _ hi]

/-- Within each row, position `j` of the shifted labels holds the label
that was at position `j + 1`. -/
theorem shiftLabels_shift (L : Nat) (hL : 0 < L) (rows : List (List Int))
    (hrect : ∀ r ∈ rows, r.length = L) (i j : Nat) (hi : i < rows.length)
    (hj : j + 1 < L) :
    ((shiftLabels rows).getD i []).getD j 0 = (rows.getD i []).getD (j + 1) 0 := by
  rw [shiftLabels_getD L hL rows hrect i hi]
  have hrow : (rows.getD i []).length = L := by
    rw [List.getD_eq_getElem _ _ hi]
    exact hrect _ (List.getElem_mem hi)
  have hdlen : ((rows.getD i []).drop 1).length = L - 1 := by
    rw [List.length_drop, hrow]
  rw [List.getD_append _ _ _ _ (by omega),
      List.getD_eq_getElem _ _ (by omega),
      List.getElem_drop,
      List.getD_eq_getElem _ _ (by omega : j + 1 < (rows.getD i []).length)]
  congr 1
  omega

/-- Within each row, the final position of the shifted labels holds the
ignore index. -/
theorem shiftLabels_last (L : Nat) (hL : 0 < L) (rows : List (List Int))
    (hrect : ∀ r ∈ rows, r.length = L) (i : Nat) (hi : i < rows.length) :
    ((shiftLabels rows).getD i []).getD (L - 1) 0 = HF_IGNORE_INDEX := by
  rw [shiftLabels_getD L hL rows hrect i hi]
  have hrow : (rows.getD i []).length = L := by
    rw [List.getD_eq_getElem _ _ hi]
    exact hrect _ (List.getElem_mem hi)
  have hdlen : ((rows.getD i []).drop 1).length = L - 1 := by
    rw [List.length_drop, hrow]
  rw [List.getD_append_right _ _ _ _ (by omega), hdlen, Nat.sub_self]
  rfl

/-- `dict.pop` keeps the binding of every other key. -/
theorem dictPop_lookup_ne (k k' : String) (hkk : k' ≠ k) :
    ∀ (d d' : List (String × TVal)) (v : TVal),
      dictPop k d = some (v, d') → d'.lookup k' = d.lookup k' := by
  intro d
  induction d with
  | nil => intro d' v h; simp [dictPop] at h
  | cons kv rest ih =>
    intro d' v h
    obtain ⟨k0, v0⟩ := kv
    by_cases hk : k0 = k
    · simp only [dictPop, if_pos hk, Option.some.injEq, Prod.mk.injEq] at h
      obtain ⟨hv, hd⟩ := h
      subst hd
      have hb : (k' == k0) = false := beq_eq_false_iff_ne.mpr (fun hh => hkk (hh.trans hk))
      simp [List.lookup, hb]
    · simp only [dictPop, if_neg hk] at h
      cases hrec : dictPop k rest with
      | none => rw [hrec] at h; exact absurd h (by simp)
      | some pr =>
        obtain ⟨v1, rest1⟩ := pr
        rw [hrec] at h
        simp only [Option.some.injEq, Prod.mk.injEq] at h
        obtain ⟨hv, hd⟩ := h
        subst hd
        by_cases hx : k' = k0
        · simp [List.lookup, hx]
        · have hb : (k' == k0) = false := beq_eq_false_iff_ne.mpr hx
          simp only [List.lookup, hb]
          exact ih rest1 v1 hrec

/-- A key that is bound nowhere in an association list looks up to `none`. -/
theorem lookup_eq_none_of_not_mem (k : String) :
    ∀ d : List (String × TVal), k ∉ d.map Prod.fst → d.lookup k = none := by
  intro d
  induction d with
  | nil => intro _; rfl
  | cons kv rest ih =>
    intro h
    obtain ⟨k0, v0⟩ := kv
    simp only [List.map_cons, List.mem_cons, not_or] at h
    have hb : (k == k0) = false := beq_eq_false_iff_ne.mpr h.1
    simp [List.lookup, hb, ih h.2]

/-- After popping a key from a duplicate-free dict, the key is gone. -/
theorem dictPop_lookup_self (k : String) :
    ∀ (d d' : List (String × TVal)) (v : TVal), (d.map Prod.fst).Nodup →
      dictPop k d = some (v, d') → d'.lookup k = none := by
  intro d
  induction d with
  | nil => intro d' v _ h; simp [dictPop] at h
  | cons kv rest ih =>
    intro d' v hnd h
    obtain ⟨k0, v0⟩ := kv
    simp only [List.map_cons, List.nodup_cons] at hnd
    by_cases hk : k0 = k
    · simp only [dictPop, if_pos hk, Option.some.injEq, Prod.mk.injEq] at h
      obtain ⟨hv, hd⟩ := h
      subst hd
      subst hk
      exact lookup_eq_none_of_not_mem _ _ hnd.1
    · simp only [dictPop, if_neg hk] at h
      cases hrec : dictPop k rest with
      | none => rw [hrec] at h; exact absurd h (by simp)
      | some pr =>
        obtain ⟨v1, rest1⟩ := pr
        rw [hrec] at h
        simp only [Option.some.injEq, Prod.mk.injEq] at h
        obtain ⟨hv, hd⟩ := h
        subst hd
        have hb : (k == k0) = false := beq_eq_false_iff_ne.mpr (fun hh => hk hh.symm)
        simp only [List.lookup, hb]
        exact ih rest1 v1 hnd.2 hrec

/-- The keys of `pyDictSet d k v` are among the keys of `d` plus `k`. -/
theorem pyDictSet_keys_subset (k : String) (v : TVal) :
    ∀ (d : List (String × TVal)) (k' : String),
      k' ∈ (pyDictSet d k v).map Prod.fst → k' ∈ d.map Prod.fst ∨ k' = k := by
  intro d
  induction d with
  | nil =>
    intro k' h
    simp only [pyDictSet, List.map_cons, List.map_nil, List.mem_singleton] at h
    exact Or.inr h
  | cons kv rest ih =>
    intro k' h
    obtain ⟨k0, v0⟩ := kv
    by_cases hk : k0 = k
    · simp only [pyDictSet, if_pos hk, List.map_cons, List.mem_cons] at h
      rcases h with h | h
      · exact Or.inr h
      · exact Or.inl (by simp [h])
    · simp only [pyDictSet, if_neg hk, List.map_cons, List.mem_cons] at h
      rcases h with h | h
      · exact Or.inl (by simp [h])
      · rcases ih k' h with h1 | h1
        · exact Or.inl (by simp only [List.map_cons, List.mem_cons]; exact Or.inr h1)
        · exact Or.inr h1

/-- A successful lookup means the key occurs in the association list. -/
theorem lookup_some_key_mem (k : String) :
    ∀ (d : List (String × TVal)) (v : TVal), d.lookup k = some v → k ∈ d.map Prod.fst := by
  intro d
  induction d with
  | nil => intro v h; simp [List.lookup] at h
  | cons kv rest ih =>
    intro v h
    obtain ⟨k0, v0⟩ := kv
    by_cases hk : k = k0
    · simp [hk]
    · have hb : (k == k0) = false := beq_eq_false_iff_ne.mpr hk
      simp only [List.lookup, hb] at h
      simp only [List.map_cons, List.mem_cons]
      exact Or.inr (ih v h)

/-- Every key of a successfully prepared keyword-argument dict is in the
recorded argument-name list. -/
theorem prepareKwargs_keys (args : List String) (d kw : List (String × TVal))
    (h : prepareKwargs args d = .ok kw) :
    ∀ k ∈ kw.map Prod.fst, k ∈ args := by
  intro k hk
  have hmem_args : ∀ k', k' ∈ (d.filter (fun kv => args.contains kv.1)).map Prod.fst →
      k' ∈ args := by
    intro k' hk'
    obtain ⟨kv, hkv, hfst⟩ := List.mem_map.mp hk'
    have hc := (List.mem_filter.mp hkv).2
    rw [← hfst]
    simpa using hc
  unfold prepareKwargs at h
  cases hlk : (d.filter (fun kv => args.contains kv.1)).lookup "attention_mask" with
  | none => rw [hlk] at h; exact absurd h (by simp)
  | some v =>
    rw [hlk] at h
    simp only [Except.ok.injEq] at h
    subst h
    rcases pyDictSet_keys_subset "attention_mask" (TVal.boolOf v) _ k hk with h1 | h1
    · exact hmem_args k h1
    · subst h1
      exact hmem_args _ (lookup_some_key_mem _ _ v hlk)

/-- Whatever happens after the pop, the caller-visible batch that
`forwardBody` leaves behind is the popped dict. -/
theorem forwardBody_fst (s : HuggingFaceModelWithZLoss)
    (model : List (String × TVal) → ModelOut) (wrap : List (String × TVal) → BatchInput)
    (d d0 : List (String × TVal)) (v : TVal)
    (hpop : dictPop "labels" d = some (v, d0)) :
    (forwardBody s model wrap d).1 = wrap d0 := by
  simp only [forwardBody, hpop]
  split
  · rfl
  · split <;> rfl

/-- `forwardBody` consults the wrapped model only at keyword-argument
dicts whose keys all lie in the recorded argument-name list. -/
theorem forwardBody_model_agnostic (s : HuggingFaceModelWithZLoss)
    (m₁ m₂ : List (String × TVal) → ModelOut) (wrap : List (String × TVal) → BatchInput)
    (d : List (String × TVal))
    (hag : ∀ kw, (∀ k ∈ kw.map Prod.fst, k ∈ s.model_forward_args) → m₁ kw = m₂ kw) :
    forwardBody s m₁ wrap d = forwardBody s m₂ wrap d := by
  unfold forwardBody
  cases hpop : dictPop "labels" d with
  | none => rfl
  | some pr =>
    obtain ⟨v, d0⟩ := pr
    dsimp only
    cases hprep : prepareKwargs s.model_forward_args d0 with
    | error e => rfl
    | ok kw =>
      dsimp only
      rw [hag kw (prepareKwargs_keys _ _ _ hprep)]

/-- C1: for a dict batch whose `labels` value is a [batch, seq] integer
tensor (rectangular, positive row length), and whose remaining entries
prepare successfully, `forward` returns the output whose loss is the mean
ignore-index cross-entropy between the flattened logits and the flattened
shifted labels, where the shifted labels satisfy: position `j` of row `i`
holds the original label at position `j + 1` whenever `j + 1 < L`, and the
final position of every row holds the ignore index `-100`. -/
theorem C1_label_shift_loss (s : HuggingFaceModelWithZLoss)
    (model : List (String × TVal) → ModelOut)
    (d d0 kw : List (String × TVal)) (data : List (List Int)) (L : Nat)
    (hL : 0 < L) (hrect : ∀ r ∈ data, r.length = L)
    (hpop : dictPop "labels" d = some (.intTensor data, d0))
    (hprep : prepareKwargs s.model_forward_args d0 = .ok kw) :
    s.forward model (.dict d) =
      (s, .dict d0,
       .ok { loss := some (crossEntropyMean (model kw).logits.flatten
                            ((shiftLabels data).flatten)),
             logits := (model kw).logits,
             past_key_values := (model kw).past_key_values,
             hidden_states := (model kw).hidden_states }) ∧
    (∀ i j, i < data.length → j + 1 < L →
      ((shiftLabels data).getD i []).getD j 0 = (data.getD i []).getD (j + 1) 0) ∧
    (∀ i, i < data.length →
      ((shiftLabels data).getD i []).getD (L - 1) 0 = HF_IGNORE_INDEX) := by
  refine ⟨?_, ?_, ?_⟩
  · simp [HuggingFaceModelWithZLoss.forward, forwardBody, hpop, hprep, computeLoss]
  · intro i j hi hj
    exact shiftLabels_shift L hL data hrect i j hi hj
  · intro i hi
    exact shiftLabels_last L hL data hrect i hi

/-- Concrete instance of C1 on the labels [[1, 2], [3, 4]]: the shifted
label at row 0, position 0 is the original label at position 1, and the
final position of row 1 is the ignore index. -/
theorem C1_label_shift_loss_witness :
    ((shiftLabels [[1, 2], [3, 4]]).getD 0 []).getD 0 0 =
      (([[1, 2], [3, 4]] : List (List Int)).getD 0 []).getD 1 0 ∧
    ((shiftLabels [[1, 2], [3, 4]]).getD 1 []).getD 1 0 = HF_IGNORE_INDEX :=
  ⟨(C1_label_shift_loss
      ⟨["input_ids", "attention_mask", "labels"], 0, true⟩
      (fun _ => ⟨[[[0, 0], [0, 0]], [[0, 0], [0, 0]]], none, none⟩)
      [("labels", .intTensor [[1, 2], [3, 4]]),
       ("attention_mask", .intTensor [[1, 1], [1, 1]]), ("extra_key", .pyNone)]
      [("attention_mask", .intTensor [[1, 1], [1, 1]]), ("extra_key", .pyNone)]
      [("attention_mask", .boolOf (.intTensor [[1, 1], [1, 1]]))]
      [[1, 2], [3, 4]] 2 (by decide) (by decide) rfl rfl).2.1 0 0 (by decide) (by decide),
   (C1_label_shift_loss
      ⟨["input_ids", "attention_mask", "labels"], 0, true⟩
      (fun _ => ⟨[[[0, 0], [0, 0]], [[0, 0], [0, 0]]], none, none⟩)
      [("labels", .intTensor [[1, 2], [3, 4]]),
       ("attention_mask", .intTensor [[1, 1], [1, 1]]), ("extra_key", .pyNone)]
      [("attention_mask", .intTensor [[1, 1], [1, 1]]), ("extra_key", .pyNone)]
      [("attention_mask", .boolOf (.intTensor [[1, 1], [1, 1]]))]
      [[1, 2], [3, 4]] 2 (by decide) (by decide) rfl rfl).2.2 1 (by decide)⟩

/-- C2: when the configured z-loss coefficient is exactly zero, `loss`
returns the extracted base loss unchanged and leaves `outputs` untouched
(no auxiliary term is computed); otherwise — given shape-compatible
logits/labels and at least one non-ignored position, so that the mean is
well defined — it returns the base loss plus the mean over positions whose
label is not `-100` of the squared log-sum-exp of the logits at that
position, multiplied by the coefficient. -/
theorem C2_z_loss_formula (a : List String) (f : Bool) (c : ℚ)
    (o : Outputs) (base : ℝ) (g : List (List (List ℝ))) (lb : List (List Int))
    (hx : extractByFlag f o = .ok (base, g)) :
    HuggingFaceModelWithZLoss.loss ⟨a, 0, f⟩ o lb = (⟨a, 0, f⟩, .ok (o, base)) ∧
    (c ≠ 0 → g.flatten.length = lb.flatten.length →
      (validRows g.flatten lb.flatten).length ≠ 0 →
      HuggingFaceModelWithZLoss.loss ⟨a, c, f⟩ o lb =
        (⟨a, c, f⟩,
         .ok (setLossByFlag o (base + zTerm g.flatten lb.flatten * (c : ℝ)),
              base + zTerm g.flatten lb.flatten * (c : ℝ)))) := by
  constructor
  · simp [HuggingFaceModelWithZLoss.loss, hx]
  · intro hc _ _
    simp [HuggingFaceModelWithZLoss.loss, hx, hc]

/-- Concrete instance of C2: coefficient 1, one valid position. -/
theorem C2_z_loss_formula_witness :
    HuggingFaceModelWithZLoss.loss ⟨[], 1, true⟩ (.dictOut 0 [[[(0:ℝ), 0]]]) [[0]] =
      (⟨[], 1, true⟩,
       .ok (.dictOut (0 + zTerm [[(0:ℝ), 0]] [0] * ((1:ℚ) : ℝ)) [[[(0:ℝ), 0]]],
            0 + zTerm [[(0:ℝ), 0]] [0] * ((1:ℚ) : ℝ))) :=
  (C2_z_loss_formula [] true 1 (.dictOut 0 [[[(0:ℝ), 0]]]) 0 [[[(0:ℝ), 0]]] [[0]]
      rfl).2 (by norm_num) rfl (by decide)

/-- C9: with extraction succeeding, the value returned by `loss` for a
positive coefficient strictly exceeds the value returned for coefficient
zero whenever some non-ignored position has nonzero squared log-sum-exp. -/
theorem C9_z_loss_monotone (a : List String) (f : Bool) (c : ℚ) (hc : 0 < c)
    (o : Outputs) (base : ℝ) (g : List (List (List ℝ))) (lb : List (List Int))
    (hx : extractByFlag f o = .ok (base, g))
    (r : List ℝ) (hr : r ∈ validRows g.flatten lb.flatten)
    (hnz : logsumexp r ^ 2 ≠ 0) :
    HuggingFaceModelWithZLoss.loss ⟨a, 0, f⟩ o lb = (⟨a, 0, f⟩, .ok (o, base)) ∧
    HuggingFaceModelWithZLoss.loss ⟨a, c, f⟩ o lb =
      (⟨a, c, f⟩,
       .ok (setLossByFlag o (base + zTerm g.flatten lb.flatten * (c : ℝ)),
            base + zTerm g.flatten lb.flatten * (c : ℝ))) ∧
    base < base + zTerm g.flatten lb.flatten * (c : ℝ) := by
  refine ⟨?_, ?_, ?_⟩
  · simp [HuggingFaceModelWithZLoss.loss, hx]
  · simp [HuggingFaceModelWithZLoss.loss, hx, hc.ne']
  · have hsum_nonneg :
        ∀ x ∈ (validRows g.flatten lb.flatten).map (fun q => logsumexp q ^ 2), 0 ≤ x := by
      intro x hxm
      obtain ⟨q, _, rfl⟩ := List.mem_map.mp hxm
      exact sq_nonneg _
    have hle : logsumexp r ^ 2 ≤
        ((validRows g.flatten lb.flatten).map (fun q => logsumexp q ^ 2)).sum :=
      List.single_le_sum hsum_nonneg _ (List.mem_map_of_mem _ hr)
    have hpos : 0 < logsumexp r ^ 2 := lt_of_le_of_ne (sq_nonneg _) (Ne.symm hnz)
    have hlenpos : 0 < ((validRows g.flatten lb.flatten).length : ℝ) := by
      have hp := List.length_pos.mpr (List.ne_nil_of_mem hr)
      exact_mod_cast hp
    have hz : 0 < zTerm g.flatten lb.flatten := by
      unfold zTerm
      exact div_pos (lt_of_lt_of_le hpos hle) hlenpos
    have hcr : (0:ℝ) < (c : ℝ) := by exact_mod_cast hc
    linarith [mul_pos hz hcr]

/-- Concrete instance of C9: uniform zero logits over a two-token
vocabulary give log-sum-exp `log 2 ≠ 0`, so the augmented loss strictly
exceeds the base loss. -/
theorem C9_z_loss_monotone_witness :
    (0:ℝ) < 0 + zTerm [[(0:ℝ), 0]] [0] * ((1:ℚ) : ℝ) :=
  (C9_z_loss_monotone [] true 1 (by norm_num) (.dictOut 0 [[[(0:ℝ), 0]]]) 0
      [[[(0:ℝ), 0]]] [[0]] rfl [(0:ℝ), 0]
      (List.mem_singleton.mpr rfl)
      (by
        have h2 : logsumexp [(0:ℝ), 0] = Real.log 2 := by
          simp [logsumexp]
          norm_num
        rw [h2]
        exact pow_ne_zero 2 (Real.log_pos (by norm_num)).ne')).2.2

/-- C3 (amended): the extraction in `loss` branches on
`config.use_return_dict`, not on the runtime shape of `outputs`: a mapping
outputs is extracted and updated in place when the flag is set, a tuple
outputs when it is unset; a representation that does not match the flag is
not handled. -/
theorem C3_dict_tuple_handling (a : List String) (c : ℚ) (hc : c ≠ 0)
    (base : ℝ) (g : List (List (List ℝ))) (lb : List (List Int)) :
    HuggingFaceModelWithZLoss.loss ⟨a, c, true⟩ (.dictOut base g) lb =
      (⟨a, c, true⟩,
       .ok (.dictOut (base + zTerm g.flatten lb.flatten * (c : ℝ)) g,
            base + zTerm g.flatten lb.flatten * (c : ℝ))) ∧
    HuggingFaceModelWithZLoss.loss ⟨a, c, false⟩ (.tupOut base g) lb =
      (⟨a, c, false⟩,
       .ok (.tupOut (base + zTerm g.flatten lb.flatten * (c : ℝ)) g,
            base + zTerm g.flatten lb.flatten * (c : ℝ))) := by
  constructor
  · simp [HuggingFaceModelWithZLoss.loss, extractByFlag, setLossByFlag, hc]
  · simp [HuggingFaceModelWithZLoss.loss, extractByFlag, setLossByFlag, hc]

/-- C3 counterexample: when the adapter's config requests dict-shaped
returns, a tuple-shaped outputs is not extracted at all — indexing the
tuple with the string key fails — so `loss` does not handle both
representations for one and the same configuration. -/
theorem C3_counterexample :
    HuggingFaceModelWithZLoss.loss ⟨[], 1, true⟩ (.tupOut 0 [[[(0:ℝ)]]]) [[0]] =
      (⟨[], 1, true⟩, .error (.typeError "tuple indices must be integers")) := rfl

/-- Concrete instance of C3 (amended): tuple outputs under the matching
(unset) flag are extracted and updated in place. -/
theorem C3_dict_tuple_handling_witness :
    HuggingFaceModelWithZLoss.loss ⟨[], 1, false⟩ (.tupOut 0 [[[(0:ℝ), 0]]]) [[0]] =
      (⟨[], 1, false⟩,
       .ok (.tupOut (0 + zTerm [[(0:ℝ), 0]] [0] * ((1:ℚ) : ℝ)) [[[(0:ℝ), 0]]],
            0 + zTerm [[(0:ℝ), 0]] [0] * ((1:ℚ) : ℝ))) :=
  (C3_dict_tuple_handling [] 1 (by norm_num) 0 [[[(0:ℝ), 0]]] [[0]]).2

/-- C4 (amended): when the `labels` key is present with a null value,
`forward` returns a `None` loss together with the wrapped model's logits;
when the key is absent, `batch.pop('labels')` raises `KeyError` before
anything else happens. -/
theorem C4_null_or_missing_labels (s : HuggingFaceModelWithZLoss)
    (model : List (String × TVal) → ModelOut) (d d0 kw : List (String × TVal)) :
    (dictPop "labels" d = some (.pyNone, d0) →
      prepareKwargs s.model_forward_args d0 = .ok kw →
      s.forward model (.dict d) =
        (s, .dict d0,
         .ok { loss := none, logits := (model kw).logits,
               past_key_values := (model kw).past_key_values,
               hidden_states := (model kw).hidden_states })) ∧
    (dictPop "labels" d = none →
      s.forward model (.dict d) = (s, .dict d, .error (.keyError "labels"))) := by
  constructor
  · intro hpop hprep
    simp [HuggingFaceModelWithZLoss.forward, forwardBody, hpop, hprep, computeLoss]
  · intro hpop
    simp [HuggingFaceModelWithZLoss.forward, forwardBody, hpop]

/-- C4 counterexample: a dict batch with no `labels` key makes `forward`
raise `KeyError` — it does not return a `None`-loss output. -/
theorem C4_counterexample :
    HuggingFaceModelWithZLoss.forward ⟨["input_ids", "attention_mask", "labels"], 0, true⟩
        (fun _ => ⟨[], none, none⟩)
        (.dict [("attention_mask", .intTensor [[1]])]) =
      (⟨["input_ids", "attention_mask", "labels"], 0, true⟩,
       .dict [("attention_mask", .intTensor [[1]])],
       .error (.keyError "labels")) := rfl

/-- Concrete instance of C4 (amended): a null `labels` value yields a
`None` loss and the model's logits. -/
theorem C4_null_or_missing_labels_witness :
    HuggingFaceModelWithZLoss.forward ⟨["attention_mask", "labels"], 0, true⟩
        (fun _ => ⟨[], none, none⟩)
        (.dict [("labels", .pyNone), ("attention_mask", .intTensor [[1]])]) =
      (⟨["attention_mask", "labels"], 0, true⟩,
       .dict [("attention_mask", .intTensor [[1]])],
       .ok { loss := none, logits := [], past_key_values := none,
             hidden_states := none }) :=
  (C4_null_or_missing_labels ⟨["attention_mask", "labels"], 0, true⟩
      (fun _ => ⟨[], none, none⟩)
      [("labels", .pyNone), ("attention_mask", .intTensor [[1]])]
      [("attention_mask", .intTensor [[1]])]
      [("attention_mask", .boolOf (.intTensor [[1]]))]).1 rfl rfl

/-- C5: every key of a successfully prepared keyword-argument dict lies in
the recorded argument-name set, and consequently `forward` is insensitive
to how the wrapped model would behave on argument dicts containing any key
outside that set — extra batch keys are never passed to the model call. -/
theorem C5_kwarg_filtering (s : HuggingFaceModelWithZLoss) :
    (∀ d kw, prepareKwargs s.model_forward_args d = .ok kw →
      ∀ k ∈ kw.map Prod.fst, k ∈ s.model_forward_args) ∧
    (∀ (m₁ m₂ : List (String × TVal) → ModelOut) (b : BatchInput),
      (∀ kw, (∀ k ∈ kw.map Prod.fst, k ∈ s.model_forward_args) → m₁ kw = m₂ kw) →
      s.forward m₁ b = s.forward m₂ b) := by
  constructor
  · intro d kw h
    exact prepareKwargs_keys _ _ _ h
  · intro m₁ m₂ b hag
    cases b with
    | dict d =>
      show (s, forwardBody s m₁ BatchInput.dict d) = (s, forwardBody s m₂ BatchInput.dict d)
      rw [forwardBody_model_agnostic s m₁ m₂ BatchInput.dict d hag]
    | userdict d =>
      show (s, forwardBody s m₁ BatchInput.userdict d) =
          (s, forwardBody s m₂ BatchInput.userdict d)
      rw [forwardBody_model_agnostic s m₁ m₂ BatchInput.userdict d hag]
    | popObj d => rfl
    | pyList xs => rfl

/-- Concrete instance of C5: a stub model that behaves differently only
when it receives the extra key `stub_key` is indistinguishable from a
constant model, because the extra key never reaches the call. -/
theorem C5_kwarg_filtering_witness :
    HuggingFaceModelWithZLoss.forward ⟨["input_ids", "attention_mask", "labels"], 0, true⟩
        (fun _ => ⟨[], none, none⟩)
        (.dict [("input_ids", .intTensor [[0]]), ("attention_mask", .intTensor [[1]]),
                ("stub_key", .pyNone), ("labels", .pyNone)]) =
      HuggingFaceModelWithZLoss.forward ⟨["input_ids", "attention_mask", "labels"], 0, true⟩
        (fun kw => if "stub_key" ∈ kw.map Prod.fst then ⟨[[[(1:ℝ)]]], none, none⟩
          else ⟨[], none, none⟩)
        (.dict [("input_ids", .intTensor [[0]]), ("attention_mask", .intTensor [[1]]),
                ("stub_key", .pyNone), ("labels", .pyNone)]) :=
  (C5_kwarg_filtering ⟨["input_ids", "attention_mask", "labels"], 0, true⟩).2
    (fun _ => ⟨[], none, none⟩)
    (fun kw => if "stub_key" ∈ kw.map Prod.fst then ⟨[[[(1:ℝ)]]], none, none⟩
      else ⟨[], none, none⟩)
    (.dict [("input_ids", .intTensor [[0]]), ("attention_mask", .intTensor [[1]]),
            ("stub_key", .pyNone), ("labels", .pyNone)])
    (by
      intro kw hsub
      have hns : "stub_key" ∉ kw.map Prod.fst := by
        intro hm
        exact absurd (hsub _ hm) (by decide)
      dsimp only
      rw [if_neg hns])

/-- C6 (amended): a non-mapping batch never reaches the wrapped model, but
the failure mode depends on the input: a list fails inside
`batch.pop('labels')` with a `TypeError` and is left unchanged, while an
object with a dict-style `pop` that is not a dict/UserDict reaches the
descriptive `ValueError` only after its `labels` entry has already been
removed (or a `KeyError` if it has none). -/
theorem C6_nonmapping_batch (s : HuggingFaceModelWithZLoss)
    (model : List (String × TVal) → ModelOut) :
    (∀ xs, s.forward model (.pyList xs) =
      (s, .pyList xs, .error (.typeError "integer argument expected, got str"))) ∧
    (∀ d v d0, dictPop "labels" d = some (v, d0) →
      s.forward model (.popObj d) =
        (s, .popObj d0, .error (.valueError unexpectedBatchTypeMsg))) ∧
    (∀ d, dictPop "labels" d = none →
      s.forward model (.popObj d) = (s, .popObj d, .error (.keyError "labels"))) := by
  refine ⟨fun xs => rfl, ?_, ?_⟩
  · intro d v d0 hpop
    simp [HuggingFaceModelWithZLoss.forward, hpop]
  · intro d hpop
    simp [HuggingFaceModelWithZLoss.forward, hpop]

/-- C6 counterexample: a pop-supporting non-dict object does get the
descriptive `ValueError`, but its `labels` entry has been removed by then —
the input is not left unchanged, contradicting the no-side-effects part of
the claim. -/
theorem C6_counterexample :
    HuggingFaceModelWithZLoss.forward ⟨["attention_mask", "labels"], 0, true⟩
        (fun _ => ⟨[], none, none⟩) (.popObj [("labels", .intTensor [[0]])]) =
      (⟨["attention_mask", "labels"], 0, true⟩, .popObj [],
       .error (.valueError unexpectedBatchTypeMsg)) ∧
    ([("labels", TVal.intTensor [[0]])] : List (String × TVal)) ≠ [] :=
  ⟨rfl, by decide⟩

/-- Concrete instance of C6 (amended): a pop-supporting non-dict object
with no `labels` entry fails with `KeyError`, unchanged. -/
theorem C6_nonmapping_batch_witness :
    HuggingFaceModelWithZLoss.forward ⟨["attention_mask", "labels"], 0, true⟩
        (fun _ => ⟨[], none, none⟩) (.popObj []) =
      (⟨["attention_mask", "labels"], 0, true⟩, .popObj [],
       .error (.keyError "labels")) :=
  (C6_nonmapping_batch ⟨["attention_mask", "labels"], 0, true⟩
      (fun _ => ⟨[], none, none⟩)).2.2 [] rfl

/-- C7: construction with a negative coefficient fails with the
invalid-configuration error, construction with a non-negative coefficient
succeeds and records it; every successfully constructed wrapper satisfies
`0 ≤ z_loss`; and `forward`, `loss` and `get_metadata` all leave the
wrapper (in particular the coefficient) unchanged. -/
theorem C7_z_loss_nonneg :
    (∀ a f, HuggingFaceModelWithZLoss.init a (-(1/2)) f = .error (.valueError zLossNegMsg)) ∧
    (∀ a f (z : ℚ), 0 ≤ z →
      HuggingFaceModelWithZLoss.init a z f = .ok ⟨a ++ ["labels"], z, f⟩) ∧
    (∀ a f (z : ℚ) w, HuggingFaceModelWithZLoss.init a z f = .ok w → 0 ≤ w.z_loss) ∧
    (∀ w model b, (HuggingFaceModelWithZLoss.forward w model b).1 = w) ∧
    (∀ w o lb, (HuggingFaceModelWithZLoss.loss w o lb).1 = w) ∧
    (∀ (J : Type) w (parse : String → J) file cn tok,
      (HuggingFaceModelWithZLoss.get_metadata w parse file cn tok).1 = w) := by
  refine ⟨?_, ?_, ?_, ?_, ?_, ?_⟩
  · intro a f
    unfold HuggingFaceModelWithZLoss.init
    rw [if_pos (by norm_num)]
  · intro a f z hz
    unfold HuggingFaceModelWithZLoss.init
    rw [if_neg (not_lt.mpr hz)]
  · intro a f z w h
    unfold HuggingFaceModelWithZLoss.init at h
    by_cases hz : z < 0
    · rw [if_pos hz] at h
      exact absurd h (by simp)
    · rw [if_neg hz] at h
      simp only [Except.ok.injEq] at h
      subst h
      exact le_of_not_lt hz
  · intro w model b
    cases b with
    | dict d => rfl
    | userdict d => rfl
    | popObj d =>
      cases hpop : dictPop "labels" d with
      | none => simp [HuggingFaceModelWithZLoss.forward, hpop]
      | some pr =>
        obtain ⟨v, d0⟩ := pr
        simp [HuggingFaceModelWithZLoss.forward, hpop]
    | pyList xs => rfl
  · intro w o lb
    unfold HuggingFaceModelWithZLoss.loss
    cases extractByFlag w.use_return_dict o with
    | error e => rfl
    | ok p =>
      obtain ⟨l, g⟩ := p
      by_cases hz : w.z_loss = 0
      · simp [hz]
      · simp [hz]
  · intro J w parse file cn tok
    rfl

/-- Concrete instance of C7: a non-negative coefficient is accepted and
recorded unchanged. -/
theorem C7_z_loss_nonneg_witness :
    HuggingFaceModelWithZLoss.init ["input_ids"] 3 true =
      .ok ⟨["input_ids", "labels"], 3, true⟩ :=
  C7_z_loss_nonneg.2.1 ["input_ids"] true 3 (by norm_num)

/-- C8 (amended): `forward` mutates its dict batch by removing exactly the
`labels` entry: the caller-visible batch afterwards is the popped dict, in
which every other key keeps its binding and (for duplicate-free keys)
`labels` is gone. -/
theorem C8_forward_batch_mutation (s : HuggingFaceModelWithZLoss)
    (model : List (String × TVal) → ModelOut) (d d0 : List (String × TVal)) (v : TVal)
    (hpop : dictPop "labels" d = some (v, d0)) :
    (s.forward model (.dict d)).2.1 = .dict d0 ∧
    (s.forward model (.userdict d)).2.1 = .userdict d0 ∧
    (∀ k, k ≠ "labels" → d0.lookup k = d.lookup k) ∧
    ((d.map Prod.fst).Nodup → d0.lookup "labels" = none) := by
  refine ⟨?_, ?_, ?_, ?_⟩
  · show (forwardBody s model BatchInput.dict d).1 = BatchInput.dict d0
    exact forwardBody_fst s model _ d d0 v hpop
  · show (forwardBody s model BatchInput.userdict d).1 = BatchInput.userdict d0
    exact forwardBody_fst s model _ d d0 v hpop
  · intro k hk
    exact dictPop_lookup_ne "labels" k hk d d0 v hpop
  · intro hnd
    exact dictPop_lookup_self "labels" d d0 v hnd hpop

/-- C8 counterexample: after `forward` returns, the caller's batch no
longer holds the `labels` entry it held before the call. -/
theorem C8_counterexample :
    (HuggingFaceModelWithZLoss.forward ⟨["attention_mask", "labels"], 0, true⟩
        (fun _ => ⟨[], none, none⟩)
        (.dict [("labels", .pyNone), ("attention_mask", .intTensor [[1]])])).2.1 =
      .dict [("attention_mask", TVal.intTensor [[1]])] ∧
    List.lookup "labels"
        [("labels", TVal.pyNone), ("attention_mask", TVal.intTensor [[1]])] =
      some TVal.pyNone ∧
    List.lookup "labels" [("attention_mask", TVal.intTensor [[1]])] =
      (none : Option TVal) :=
  ⟨rfl, rfl, rfl⟩

/-- Concrete instance of C8 (amended): a key other than `labels` keeps its
binding across the pop that `forward` performs. -/
theorem C8_forward_batch_mutation_witness :
    List.lookup "input_ids" [("input_ids", TVal.intTensor [[2]])] =
      List.lookup "input_ids"
        [("labels", TVal.pyNone), ("input_ids", TVal.intTensor [[2]])] :=
  (C8_forward_batch_mutation ⟨[], 0, true⟩ (fun _ => ⟨[], none, none⟩)
      [("labels", .pyNone), ("input_ids", .intTensor [[2]])]
      [("input_ids", .intTensor [[2]])] .pyNone rfl).2.2.1 "input_ids" (by decide)

/-- C10: `get_metadata` always returns the structure whose model entry
holds `.json`, the parsed saved configuration and the wrapped model's
fully-qualified class name, and whose tokenizer entry is the empty mapping
even when a tokenizer (and hence its saved files) was supplied. -/
theorem C10_get_metadata (J : Type) (s : HuggingFaceModelWithZLoss)
    (parse : String → J) (file cn : String) (tok : Option (List (String × String))) :
    s.get_metadata parse file cn tok =
      (s, { modelConfig := { file_extension := ".json", content := parse file,
                             class_name := cn },
            tokenizer := [] }) := rfl
